import Mathlib

/-!
Verification development for the SentinelTrade core: the resilient cache
(redis.service.ts), the price-alert matcher (crypto.service.ts) and the
webhook dispatcher (webhook.service.ts).

Modelling conventions:
* JavaScript runtime values are embedded as `JsVal` (strings, numbers as
  rationals, booleans, plain objects as association lists in property-insertion
  order, and `undefined`).  Property access on a missing field yields
  `JsVal.undef`, as in JavaScript.
* JS numbers are modelled as rationals; the only numeric operations the core
  performs on them are order comparisons, for which this is order-faithful.
* `Map` objects (`inMemoryStorage`, `priceUpdateCallbacks`) are association
  lists in insertion order; `Map.set` keeps the original position of an
  existing key, as JS does.
* `JSON.stringify` followed by `JSON.parse` is modelled as the identity on the
  stored object, so the remote store holds `JsVal`s directly (with an optional
  expiry timestamp, mirroring the `'EX'` argument accepted by the backend).
* Remote-backend behaviour is an environment parameter: `Env.remoteThrows`
  says whether a remote call rejects.  A thrown JS exception is `Except.error`.
* Wall-clock time is a natural-number field `now` of the state; only the
  remote backend ever reads it (for `'EX'` expiry).
-/

set_option autoImplicit false

namespace SentinelTrade

/-- A JavaScript runtime value: string, number (as a rational), boolean,
plain object (association list of properties in insertion order), or
`undefined`. -/
inductive JsVal : Type where
  | str (s : String)
  | num (q : ℚ)
  | bool (b : Bool)
  | obj (fields : List (String × JsVal))
  | undef

/-- JavaScript truthiness: `""`, `0`, `false` and `undefined` are falsy;
every object is truthy. -/
def jsTruthy : JsVal → Bool
  | .str s => s ≠ ""
  | .num q => q ≠ 0
  | .bool b => b
  | .obj _ => true
  | .undef => false

/-- JavaScript `a || b`: returns `a` when truthy, else `b`. -/
def jsOr (a b : JsVal) : JsVal := if jsTruthy a then a else b

/-- JavaScript property access `o.f` on a plain object: the value of the first
matching property, or `undefined` when the property is absent. -/
def getField : List (String × JsVal) → String → JsVal
  | [], _ => .undef
  | (k, v) :: rest, f => if k = f then v else getField rest f

/-- Association-list map in insertion order; `mapSet` overwrites in place
(JS `Map.set` keeps the original insertion position of an existing key). -/
def mapSet {α : Type} : List (String × α) → String → α → List (String × α)
  | [], k, v => [(k, v)]
  | (k1, v1) :: rest, k, v =>
    if k1 = k then (k, v) :: rest else (k1, v1) :: mapSet rest k v

/-- JS `Map.get`: `some` value or `none` (i.e. `undefined`). -/
def mapGet {α : Type} : List (String × α) → String → Option α
  | [], _ => none
  | (k1, v1) :: rest, k => if k1 = k then some v1 else mapGet rest k

/-- JS `Map.delete`: removes the entry with the given key, if present. -/
def mapDelete {α : Type} (m : List (String × α)) (k : String) : List (String × α) :=
  m.filter (fun kv => kv.1 ≠ k)

/-- JS `s.startsWith(p)`. -/
def jsStartsWith (s pfx : String) : Bool := pfx.data.isPrefixOf s.data

/-- Worker for `jsSplit`: accumulates the current chunk (reversed). -/
def jsSplitAux (c : Char) : List Char → List Char → List String
  | [], acc => [String.mk acc.reverse]
  | x :: xs, acc =>
    if x = c then String.mk acc.reverse :: jsSplitAux c xs []
    else jsSplitAux c xs (x :: acc)

/-- JS `s.split(c)` for a single-character separator: the list of chunks
between occurrences of `c` (`"a:b:c".split(':') = ["a","b","c"]`,
`"".split(':') = [""]`). -/
def jsSplit (s : String) (c : Char) : List String := jsSplitAux c s.data []

/-- JS template-literal rendering `${v}` of a value interpolated into a key
string.  The only non-number case the core ever reaches is `undefined`
(rendered `"undefined"`); the rational case renders integers the JS way, and
the remaining branches are stated for totality only. -/
def jsTemplate : JsVal → String
  | .undef => "undefined"
  | .str s => s
  | .bool b => if b then "true" else "false"
  | .num q => if q.den = 1 then toString q.num else toString q
  | .obj _ => "[object Object]"

/-- A remote-store entry: the (deserialized) value plus the absolute expiry
time recorded by `set .. 'EX' seconds`, when one was given. -/
structure RemoteEntry : Type where
  val : JsVal
  expiresAt : Option ℕ

/-- State of the `RedisService` singleton plus the model clock:
the availability flag, the remote backend's key space, and the process-local
`inMemoryStorage` map. -/
structure St : Type where
  redisAvailable : Bool
  redis : List (String × RemoteEntry)
  mem : List (String × JsVal)
  now : ℕ

/-- Environment: whether every remote-backend call currently rejects
(throws).  The availability flag of `St` is the service's *belief*; this field
is the backend's actual behaviour. -/
structure Env : Type where
  remoteThrows : Bool

/-- A remote entry is live at time `t` unless its recorded expiry has been
reached (the backend's documented `'EX'` contract). -/
def RemoteEntry.live (e : RemoteEntry) (t : ℕ) : Bool :=
  match e.expiresAt with
  | none => true
  | some d => t < d

namespace RedisService

/-- `getKey` from redis.service.ts:
`` `${type}:${userId}${symbol ? ':' + symbol : ''}` `` — the user id is
whatever string the caller's value interpolates to, and an empty (falsy)
symbol contributes nothing. -/
def getKey (type userId : String) (symbol : Option String) : String :=
  type ++ ":" ++ userId ++
    (match symbol with
     | some s => if s = "" then "" else ":" ++ s
     | none => "")

/-- The object literal `{ symbol, price, isAbove }` stored by `setPriceAlert`.
Note it has no `userId` and no `targetPrice` property. -/
def alertData (symbol : String) (price : ℚ) (isAbove : Bool) : JsVal :=
  .obj [("symbol", .str symbol), ("price", .num price), ("isAbove", .bool isAbove)]

/-- `setPriceAlert` with the user-id key part already rendered to a string
(the declared parameter type is `number`, but `handlePriceUpdate` passes a
string at runtime; the template literal in `getKey` accepts either).
Writes to the remote backend when the flag is up; a remote failure is caught
and the write falls back to `inMemoryStorage`.  Never throws. -/
def setPriceAlertRaw (env : Env) (st : St) (userKey symbol : String)
    (price : ℚ) (isAbove : Bool) : St :=
  let key := getKey "alert" userKey (some symbol)
  let data := alertData symbol price isAbove
  if st.redisAvailable then
    if env.remoteThrows then
      { st with mem := mapSet st.mem key data }
    else
      { st with redis := mapSet st.redis key ⟨data, none⟩ }
  else
    { st with mem := mapSet st.mem key data }

/-- `setPriceAlert(userId: number, ...)` as called with an actual numeric id. -/
def setPriceAlert (env : Env) (st : St) (userId : ℕ) (symbol : String)
    (price : ℚ) (isAbove : Bool) : St :=
  setPriceAlertRaw env st (Nat.repr userId) symbol price isAbove

/-- The record (`Record<string, any>`) built by `getPriceAlerts`: for each
found key, the property named by `key.split(':')[2]` is set to the entry's
value; later keys overwrite earlier ones with the same third component. -/
def alertsRecord (entries : List (String × JsVal)) : List (String × JsVal) :=
  entries.foldl
    (fun acc kv => mapSet acc ((jsSplit kv.1 ':').getD 2 "undefined") kv.2) []

/-- The in-memory branch of `getPriceAlerts`: iterate `inMemoryStorage`
entries whose key satisfies `` key.startsWith(`alert:${userId}`) `` — note
there is no trailing `':'` in this prefix test. -/
def memAlertEntries (st : St) (userKey : String) : List (String × JsVal) :=
  st.mem.filter (fun kv => jsStartsWith kv.1 ("alert:" ++ userKey))

/-- `getPriceAlerts` with the user-id key part already rendered to a string.
Remote branch: `KEYS` with pattern `` `alert:${userId}:*` `` (keys having the
pattern's literal part as a prefix and still live), then `GET` each key.
Fallback branch (flag down, or any remote call rejected and caught): scan
`inMemoryStorage` by the *colon-less* prefix `` `alert:${userId}` ``.
Always returns a record keyed by `key.split(':')[2]`; never throws. -/
def getPriceAlertsRaw (env : Env) (st : St) (userKey : String) :
    List (String × JsVal) :=
  if st.redisAvailable then
    if env.remoteThrows then
      alertsRecord (memAlertEntries st userKey)
    else
      alertsRecord
        ((st.redis.filter
            (fun kv => jsStartsWith kv.1 ("alert:" ++ userKey ++ ":")
              && kv.2.live st.now)).filterMap
          (fun kv => if jsTruthy kv.2.val then some (kv.1, kv.2.val) else none))
  else
    alertsRecord (memAlertEntries st userKey)

/-- `getPriceAlerts(userId: number)` as called with an actual numeric id. -/
def getPriceAlerts (env : Env) (st : St) (userId : ℕ) : List (String × JsVal) :=
  getPriceAlertsRaw env st (Nat.repr userId)

/-- `removePriceAlert` with the user-id key part already rendered to a string
(`handlePriceUpdate` passes `alert.userId`, which is `undefined` for stored
alerts).  The `isAbove` argument is accepted but never used.  The remote
`DEL` is *not* wrapped in try/catch, so a remote failure propagates. -/
def removePriceAlertRaw (env : Env) (st : St) (userKey symbol : String)
    (_isAbove : Bool) : Except Unit St :=
  let key := getKey "alert" userKey (some symbol)
  if st.redisAvailable then
    if env.remoteThrows then .error ()
    else .ok { st with redis := mapDelete st.redis key }
  else .ok { st with mem := mapDelete st.mem key }

/-- `removePriceAlert(userId: number, ...)` as called with a numeric id. -/
def removePriceAlert (env : Env) (st : St) (userId : ℕ) (symbol : String)
    (isAbove : Bool) : Except Unit St :=
  removePriceAlertRaw env st (Nat.repr userId) symbol isAbove

/-- `setCacheWithExpiry(key, value: string, expirySeconds)`: remote
`SET .. 'EX' expirySeconds` when the flag is up — with *no* try/catch, so a
remote failure propagates and nothing is written anywhere; otherwise a plain
`inMemoryStorage.set(key, value)` that records no expiry at all. -/
def setCacheWithExpiry (env : Env) (st : St) (key value : String)
    (expirySeconds : ℕ) : Except Unit St :=
  if st.redisAvailable then
    if env.remoteThrows then .error ()
    else .ok { st with
      redis := mapSet st.redis key ⟨.str value, some (st.now + expirySeconds)⟩ }
  else .ok { st with mem := mapSet st.mem key (.str value) }

/-- `getCache(key)`: remote `GET` (honouring expiry) when the flag is up —
again with no try/catch — else `inMemoryStorage.get(key) || null` (so a falsy
stored value, e.g. the empty string, reads back as `null`). -/
def getCache (env : Env) (st : St) (key : String) : Except Unit (Option JsVal) :=
  if st.redisAvailable then
    if env.remoteThrows then .error ()
    else .ok (match mapGet st.redis key with
      | some e => if e.live st.now then some e.val else none
      | none => none)
  else .ok (match mapGet st.mem key with
    | some v => if jsTruthy v then some v else none
    | none => none)

/-- `setUserPortfolio`: remote write when the flag is up; any remote failure
is caught and the portfolio object is written to `inMemoryStorage`.  Never
throws. -/
def setUserPortfolio (env : Env) (st : St) (userId : ℕ) (portfolio : JsVal) : St :=
  let key := getKey "portfolio" (Nat.repr userId) none
  if st.redisAvailable then
    if env.remoteThrows then { st with mem := mapSet st.mem key portfolio }
    else { st with redis := mapSet st.redis key ⟨portfolio, none⟩ }
  else { st with mem := mapSet st.mem key portfolio }

/-- `getUserPortfolio`: remote read when the flag is up (`data ? parse : {}`);
a remote failure is caught and answered from
`inMemoryStorage.get(key) || {}`.  Never throws. -/
def getUserPortfolio (env : Env) (st : St) (userId : ℕ) : JsVal :=
  let key := getKey "portfolio" (Nat.repr userId) none
  if st.redisAvailable then
    if env.remoteThrows then
      jsOr ((mapGet st.mem key).getD .undef) (.obj [])
    else
      match mapGet st.redis key with
      | some e => if e.live st.now && jsTruthy e.val then e.val else .obj []
      | none => .obj []
  else jsOr ((mapGet st.mem key).getD .undef) (.obj [])

/-- `getWebhook`: remote read when the flag is up; a remote failure is caught
and answered from `inMemoryStorage.get(key) || null`.  Never throws. -/
def getWebhook (env : Env) (st : St) (userId : ℕ) : Option JsVal :=
  let key := getKey "webhook" (Nat.repr userId) none
  if st.redisAvailable then
    if env.remoteThrows then
      match mapGet st.mem key with
      | some v => if jsTruthy v then some v else none
      | none => none
    else
      match mapGet st.redis key with
      | some e => if e.live st.now then some e.val else none
      | none => none
  else
    match mapGet st.mem key with
    | some v => if jsTruthy v then some v else none
    | none => none

/-- `clearUserAlerts(userId)`: the remote branch deletes the keys returned by
`KEYS` on pattern `` `alert:${userId}:*` `` (prefix *with* the colon); then —
in the success path and in the catch path alike — every `inMemoryStorage` key
satisfying `` key.startsWith(`alert:${userId}`) `` (prefix *without* a colon)
is deleted.  Never throws. -/
def clearUserAlerts (env : Env) (st : St) (userId : ℕ) : St :=
  let memCleared :=
    st.mem.filter (fun kv => !jsStartsWith kv.1 ("alert:" ++ Nat.repr userId))
  if st.redisAvailable && !env.remoteThrows then
    { st with
      redis := st.redis.filter
        (fun kv => !jsStartsWith kv.1 ("alert:" ++ Nat.repr userId ++ ":")),
      mem := memCleared }
  else
    { st with mem := memCleared }

end RedisService

namespace CryptoService

/-- The `PriceData` interface of crypto.service.ts. -/
structure PriceData : Type where
  price : ℚ
  change24h : ℚ
  volume24h : ℚ
  marketCap : ℚ

/-- The `JSON.stringify(data)` string cached under `` `price:${symbol}` ``.
No claim inspects this string's contents, only its presence; the numeric
rendering is therefore not load-bearing. -/
def priceJson (d : PriceData) : String :=
  "\x7b\"price\":" ++ toString d.price ++ ",\"change24h\":" ++ toString d.change24h
    ++ ",\"volume24h\":" ++ toString d.volume24h ++ ",\"marketCap\":"
    ++ toString d.marketCap ++ "\x7d"

/-- `alert.isAbove ? 'above' : 'below'` — whether the converted
`typedAlert.condition` is `'above'` (JS truthiness of the stored property). -/
def condIsAbove (alert : List (String × JsVal)) : Bool :=
  jsTruthy (getField alert "isAbove")

/-- JS `price >= t` where `t = typedAlert.price = alert.targetPrice`.
When `t` is not a number (in particular `undefined`, the only case reachable
from stored alerts, which have no `targetPrice` property), the comparison is
a NaN comparison and yields `false`. -/
def jsGeNum (price : ℚ) : JsVal → Bool
  | .num t => price ≥ t
  | _ => false

/-- JS `price <= t`, same conventions as `jsGeNum`. -/
def jsLeNum (price : ℚ) : JsVal → Bool
  | .num t => price ≤ t
  | _ => false

/-- The trigger test of `handlePriceUpdate` on one alert record `v`:
`(condition === 'above' && data.price >= typedAlert.price) ||
 (condition === 'below' && data.price <= typedAlert.price)`
with `typedAlert.price := alert.targetPrice`. -/
def alertMatches (price : ℚ) (v : JsVal) : Bool :=
  match v with
  | .obj alert =>
    (condIsAbove alert && jsGeNum price (getField alert "targetPrice"))
      || (!condIsAbove alert && jsLeNum price (getField alert "targetPrice"))
  | _ => false

/-- A recorded callback invocation `callback(symbol, data.price)`:
the subscribed callback's identifier and the arguments it received. -/
structure CallbackEvent : Type where
  callbackId : ℕ
  symbol : String
  price : ℚ

/-- The body of `handlePriceUpdate`'s `for` loop over the alerts record.
On a match, every callback in `priceUpdateCallbacks.get(symbol) || []` is
invoked with `(symbol, data.price)` and then
`removePriceAlert(typedAlert.userId, symbol, ...)` runs — whose remote `DEL`
can throw, aborting the rest of the loop (the service state at the throw and
the callbacks already fired are kept; the exception is caught by
`handlePriceUpdate`'s outer try/catch).

The record returned by `getPriceAlerts` is a plain object, so the source's
`for (const alert of alerts)` actually throws a `TypeError` at run time
(plain objects are not iterable); we model the charitable reading in which
the loop visits each entry's value, which only gives the matcher *more*
opportunities to fire — the divergences proved below occur even so. -/
def alertLoop (env : Env) (cbs : List (String × List ℕ)) (symbol : String)
    (price : ℚ) : St → List CallbackEvent → List (String × JsVal) →
    St × List CallbackEvent
  | st, evs, [] => (st, evs)
  | st, evs, (_, v) :: rest =>
    if alertMatches price v then
      let evs2 := evs ++ ((mapGet cbs symbol).getD []).map
        (fun id => ⟨id, symbol, price⟩)
      match RedisService.removePriceAlertRaw env st
          (jsTemplate (match v with | .obj a => getField a "userId" | _ => .undef))
          symbol (condIsAbove (match v with | .obj a => a | _ => [])) with
      | .error _ => (st, evs2)
      | .ok st2 => alertLoop env cbs symbol price st2 evs2 rest
    else alertLoop env cbs symbol price st evs rest

/-- `handlePriceUpdate(symbol, data)` from crypto.service.ts: cache the
snapshot under `` `price:${symbol}` `` with a 300-second expiry, fetch the
alerts via `getPriceAlerts(symbol)` — passing the *symbol* where
`getPriceAlerts` declares a `userId` parameter — and run the matching loop.
Every exception is caught by the surrounding try/catch, so the function is
total; it returns the final service state and the callback invocations that
occurred. -/
def handlePriceUpdate (env : Env) (cbs : List (String × List ℕ)) (st : St)
    (symbol : String) (data : PriceData) : St × List CallbackEvent :=
  match RedisService.setCacheWithExpiry env st ("price:" ++ symbol)
      (priceJson data) 300 with
  | .error _ => (st, [])
  | .ok st1 =>
    let alerts := RedisService.getPriceAlertsRaw env st1 symbol
    alertLoop env cbs symbol data.price st1 [] alerts

end CryptoService

namespace WebhookService

/-- `MAX_RETRIES` from webhook.service.ts. -/
def MAX_RETRIES : ℕ := 3

/-- `RETRY_DELAY` (milliseconds) from webhook.service.ts. -/
def RETRY_DELAY : ℕ := 1000

/-- Outcome of a single HTTP POST attempt: a response with a status code, or
a network error / timeout (axios rejection). -/
inductive AttemptRes : Type where
  | status (code : ℕ)
  | netError

/-- An attempt succeeds exactly when it produced a 2xx response; any other
status is thrown (`throw new Error(...)`, and axios itself rejects non-2xx),
and a network error rejects, so both land in the catch block. -/
def attemptOk : AttemptRes → Bool
  | .status code => decide (200 ≤ code) && decide (code < 300)
  | .netError => false

/-- `sendWithRetry(url, payload, attempt)`: one POST; on a 2xx response
return `true`; otherwise, while `attempt < MAX_RETRIES`, wait
`RETRY_DELAY * attempt` ms and recurse with `attempt + 1`; after the last
attempt return `false`.  The delivery environment `http n` gives the outcome
of the attempt numbered `n`.  Returns (result, number of POST attempts made,
list of backoff waits performed, in order). -/
def sendWithRetry (http : ℕ → AttemptRes) (attempt : ℕ) :
    Bool × ℕ × List ℕ :=
  if attemptOk (http attempt) then (true, 1, [])
  else if _hlt : attempt < MAX_RETRIES then
    let r := sendWithRetry http (attempt + 1)
    (r.1, r.2.1 + 1, RETRY_DELAY * attempt :: r.2.2)
  else (false, 1, [])
termination_by MAX_RETRIES - attempt
decreasing_by exact Nat.sub_succ_lt_self MAX_RETRIES attempt _hlt

/-- `sendNotification(userId, event, data)` from webhook.service.ts: look up
the user's webhook URL via `redisService.getWebhook`; if the result is falsy
(`null`, or the empty string) return `false` without any HTTP call; otherwise
deliver with `sendWithRetry` starting at attempt 1.  The whole body is inside
try/catch, so no exception escapes; the payload contents do not affect the
result.  Returns (result, number of HTTP POST attempts made). -/
def sendNotification (env : Env) (http : ℕ → AttemptRes) (st : St)
    (userId : ℕ) (_event : String) (_data : JsVal) : Bool × ℕ :=
  match RedisService.getWebhook env st userId with
  | none => (false, 0)
  | some url =>
    if jsTruthy url then
      let r := sendWithRetry http 1
      (r.1, r.2.1)
    else (false, 0)

end WebhookService

/-! ## Operation sequences over the facade (for the fallback-transparency
property).  An `Op` is one caller-visible set/get call; `Out` is what the
caller observes (a return value or a thrown exception). -/

/-- One caller-visible operation against the cache facade. -/
inductive Op : Type where
  | setPortfolio (userId : ℕ) (portfolio : JsVal)
  | getPortfolio (userId : ℕ)
  | setCacheExp (key value : String) (ttl : ℕ)
  | getCacheOp (key : String)

/-- What the caller of one operation observes. -/
inductive Out : Type where
  | okUnit
  | val (v : JsVal)
  | cacheVal (v : Option JsVal)
  | exn

/-- Run one operation through the service code. -/
def runOp (env : Env) (st : St) : Op → Out × St
  | .setPortfolio u p => (.okUnit, RedisService.setUserPortfolio env st u p)
  | .getPortfolio u => (.val (RedisService.getUserPortfolio env st u), st)
  | .setCacheExp k v ttl =>
    match RedisService.setCacheWithExpiry env st k v ttl with
    | .ok st2 => (.okUnit, st2)
    | .error _ => (.exn, st)
  | .getCacheOp k =>
    match RedisService.getCache env st k with
    | .ok v => (.cacheVal v, st)
    | .error _ => (.exn, st)

/-- Run a sequence of operations through the service code, collecting each
operation's observed outcome (an operation that throws leaves the state as it
was; the caller goes on to the next operation). -/
def run (env : Env) (st : St) : List Op → List Out × St
  | [] => ([], st)
  | op :: rest =>
    let (o, st2) := runOp env st op
    let (os, st3) := run env st2 rest
    (o :: os, st3)

/-- Modelled from the spec (P1): the same operations run against "a system
with only the fallback store" — a process-local map, never touching the
remote backend.  Read-back quirks that belong to the caller-visible contract
(`|| {}` for portfolios, `|| null` for cache reads) are part of the facade
in either world and are kept. -/
def runFBOp (mem : List (String × JsVal)) : Op → Out × List (String × JsVal)
  | .setPortfolio u p =>
    (.okUnit, mapSet mem (RedisService.getKey "portfolio" (Nat.repr u) none) p)
  | .getPortfolio u =>
    (.val (jsOr ((mapGet mem (RedisService.getKey "portfolio" (Nat.repr u) none)).getD
      .undef) (.obj [])), mem)
  | .setCacheExp k v _ => (.okUnit, mapSet mem k (.str v))
  | .getCacheOp k =>
    (.cacheVal (match mapGet mem k with
      | some v => if jsTruthy v then some v else none
      | none => none), mem)

/-- Modelled from the spec: the fallback-only system run on a sequence. -/
def runFB (mem : List (String × JsVal)) : List Op → List Out × List (String × JsVal)
  | [] => ([], mem)
  | op :: rest =>
    let (o, mem2) := runFBOp mem op
    let (os, mem3) := runFB mem2 rest
    (o :: os, mem3)

/-- Modelled from the spec: `getAlertsForSymbol(symbol)` — "cross-user lookup
used by the matcher: scans the full alert key space filtering by symbol".
No such function exists in the code; this is the spec's description of the
set of registry entries whose key is `alert:{userId}:{symbol}` for the given
symbol, across every userId, here over the active fallback store. -/
def specAlertsForSymbol (st : St) (symbol : String) : List (String × JsVal) :=
  st.mem.filter (fun kv =>
    match jsSplit kv.1 ':' with
    | [t, _, s] => t = "alert" && s = symbol
    | _ => false)

/-- The model clock advanced by `t` time units (nothing else changes). -/
def advance (st : St) (t : ℕ) : St := { st with now := st.now + t }

/-! ## Shared concrete fixtures and helper lemmas -/

/-- Environment in which the remote backend answers every call. -/
def envOk : Env := ⟨false⟩

/-- Environment in which every remote call rejects (throws). -/
def envThrow : Env := ⟨true⟩

/-- Initial state with the availability flag down (remote never connected). -/
def st0 : St := ⟨false, [], [], 0⟩

/-- Initial state with the availability flag up. -/
def stOn : St := ⟨true, [], [], 0⟩

theorem mapGet_mapSet {α : Type} (m : List (String × α)) (k : String) (v : α) :
    mapGet (mapSet m k v) k = some v := by
  induction m with
  | nil => simp [mapSet, mapGet]
  | cons kv rest ih =>
    obtain ⟨k1, v1⟩ := kv
    by_cases h : k1 = k <;> simp [mapSet, mapGet, h, ih]

theorem mapGet_mapDelete {α : Type} (m : List (String × α)) (k : String) :
    mapGet (mapDelete m k) k = none := by
  induction m with
  | nil => simp [mapDelete, mapGet]
  | cons kv rest ih =>
    obtain ⟨k1, v1⟩ := kv
    by_cases h : k1 = k
    · simpa [mapDelete, h] using ih
    · simpa [mapDelete, mapGet, h] using ih

/-- Both branches of `clearUserAlerts` clear `inMemoryStorage` by the
colon-less prefix test. -/
theorem clearUserAlerts_mem (env : Env) (st : St) (u : ℕ) :
    (RedisService.clearUserAlerts env st u).mem =
      st.mem.filter (fun kv => !jsStartsWith kv.1 ("alert:" ++ Nat.repr u)) := by
  unfold RedisService.clearUserAlerts
  split <;> rfl

/-- If `p` is a prefix of `m` (as character data), then `a ++ p` is a
`startsWith`-prefix of `(a ++ m) ++ r`. -/
theorem jsStartsWith_append (a p m r : String) (h : p.data <+: m.data) :
    jsStartsWith ((a ++ m) ++ r) (a ++ p) = true := by
  unfold jsStartsWith
  rw [String.data_append, String.data_append, String.data_append]
  obtain ⟨t, ht⟩ := h
  exact List.isPrefixOf_iff_prefix.mpr
    ⟨t ++ r.data, by rw [← ht]; simp [List.append_assoc]⟩

/-- `getKey` for an alert key, with the literal part split off. -/
theorem getKey_alert (u s : String) :
    RedisService.getKey "alert" u (some s) =
      ("alert:" ++ u) ++ (if s = "" then "" else ":" ++ s) := rfl

/-- State after user 42 stores an ABOVE alert at 100 on "polkadot" (fallback
mode; key `alert:42:polkadot`). -/
def stPolkadot : St := RedisService.setPriceAlert envOk st0 42 "polkadot" 100 true

/-- State after user 42 stores an ABOVE alert at 5 on "DOT" (fallback mode;
key `alert:42:DOT` — Scenario A of the spec). -/
def stDOT : St := RedisService.setPriceAlert envOk st0 42 "DOT" 5 true

/-! ## Claim theorems -/

/-- C1: the claim says the matching pass considers the registry entries
`alert:{userId}:{symbol}` across every userId.  In the code
`handlePriceUpdate` passes the *symbol* to `getPriceAlerts`, whose `userId`
parameter lands in the second key component, so the pass queries the keyspace
`alert:{symbol}:*` instead: with the registry holding user 42's alert on
"polkadot" (key `alert:42:polkadot`), the set of alerts the pass considers is
empty — while the cross-user set the spec describes contains that alert — and
a tick at a qualifying price invokes no callback. -/
theorem matcher_queries_symbol_as_userId :
    RedisService.getPriceAlertsRaw envOk stPolkadot "polkadot" = [] ∧
    specAlertsForSymbol stPolkadot "polkadot" =
      [("alert:42:polkadot", RedisService.alertData "polkadot" 100 true)] ∧
    (CryptoService.handlePriceUpdate envOk [("polkadot", [0])] stPolkadot
      "polkadot" ⟨100, 0, 0, 0⟩).2 = [] :=
  ⟨rfl, rfl, rfl⟩

/-- C2: the claim (spec P3 / Scenario A) is that a matched alert's callbacks
fire once and the alert is then deleted.  In the code the matching pass never
reaches a stored alert at all (C1's key mix-up; and a reached alert would
compare against the missing `targetPrice` field and delete key
`alert:undefined:{symbol}`): with user 42's ABOVE-5 alert on "DOT" and a
subscribed callback, a tick at price 5 invokes no callback, the alert is
still stored afterwards, and a second tick at the same qualifying price again
invokes nothing — delivery never happens even once, rather than at most
once. -/
theorem matched_alert_not_delivered_not_deleted :
    (CryptoService.handlePriceUpdate envOk [("DOT", [0])] stDOT "DOT"
      ⟨5, 0, 0, 0⟩).2 = [] ∧
    RedisService.getPriceAlerts envOk
      (CryptoService.handlePriceUpdate envOk [("DOT", [0])] stDOT "DOT"
        ⟨5, 0, 0, 0⟩).1 42 = [("DOT", RedisService.alertData "DOT" 5 true)] ∧
    (CryptoService.handlePriceUpdate envOk [("DOT", [0])]
      (CryptoService.handlePriceUpdate envOk [("DOT", [0])] stDOT "DOT"
        ⟨5, 0, 0, 0⟩).1 "DOT" ⟨5, 0, 0, 0⟩).2 = [] :=
  ⟨rfl, rfl, rfl⟩

/-- C3: the claim (spec P2) is that an ABOVE alert with target 100 fires
exactly when the observed price is ≥ 100.  The trigger test reads
`alert.targetPrice`, but `setPriceAlert` stores the target under `price`, so
the comparison is against `undefined` and is always false: the stored ABOVE
alert does not fire at price 100 (the boundary the spec says fires) nor at
101, the BELOW alert does not fire at its boundary either, and the
`targetPrice` read on the stored record is indeed `undefined`. -/
theorem above_alert_does_not_fire_at_target :
    CryptoService.alertMatches 100 (RedisService.alertData "polkadot" 100 true)
      = false ∧
    CryptoService.alertMatches 101 (RedisService.alertData "polkadot" 100 true)
      = false ∧
    CryptoService.alertMatches 100 (RedisService.alertData "polkadot" 100 false)
      = false ∧
    getField [("symbol", JsVal.str "polkadot"), ("price", JsVal.num 100),
      ("isAbove", JsVal.bool true)] "targetPrice" = JsVal.undef :=
  ⟨rfl, rfl, rfl, rfl⟩

/-- C4: when every delivery attempt fails, `sendWithRetry` makes exactly 3
POST attempts, waiting `1000ms × n` after failed attempt `n` (backoffs 1000ms
then 2000ms between the three attempts), and returns `false` without
throwing; and whenever *some* attempt returns a 2xx — be it the first, the
second or the third, exhausting the three possible positions of the first
success — it returns `true` immediately with no further attempts: after
exactly 1, 2 or 3 attempts respectively, with only the backoffs already
performed before the successful attempt. -/
theorem webhook_retry_bound_and_short_circuit
    (http : ℕ → WebhookService.AttemptRes) :
    ((∀ n, WebhookService.attemptOk (http n) = false) →
      WebhookService.sendWithRetry http 1 = (false, 3, [1000, 2000])) ∧
    (WebhookService.attemptOk (http 1) = true →
      WebhookService.sendWithRetry http 1 = (true, 1, [])) ∧
    (WebhookService.attemptOk (http 1) = false →
      WebhookService.attemptOk (http 2) = true →
      WebhookService.sendWithRetry http 1 = (true, 2, [1000])) ∧
    (WebhookService.attemptOk (http 1) = false →
      WebhookService.attemptOk (http 2) = false →
      WebhookService.attemptOk (http 3) = true →
      WebhookService.sendWithRetry http 1 = (true, 3, [1000, 2000])) := by
  refine ⟨?_, ?_, ?_, ?_⟩
  · intro hf
    simp [WebhookService.sendWithRetry, hf, WebhookService.MAX_RETRIES,
      WebhookService.RETRY_DELAY]
  · intro h1
    simp [WebhookService.sendWithRetry, h1]
  · intro h1 h2
    simp [WebhookService.sendWithRetry, h1, h2, WebhookService.MAX_RETRIES,
      WebhookService.RETRY_DELAY]
  · intro h1 h2 h3
    simp [WebhookService.sendWithRetry, h1, h2, h3, WebhookService.MAX_RETRIES,
      WebhookService.RETRY_DELAY]

/-- Witness for C4 at concrete delivery environments: always HTTP 500, and a
2xx arriving on the first, the second and the third attempt. -/
theorem webhook_retry_bound_witness :
    WebhookService.sendWithRetry (fun _ => .status 500) 1 = (false, 3, [1000, 2000]) ∧
    WebhookService.sendWithRetry (fun _ => .status 200) 1 = (true, 1, []) ∧
    WebhookService.sendWithRetry (fun n => if n ≤ 1 then .status 500 else .status 204) 1 =
      (true, 2, [1000]) ∧
    WebhookService.sendWithRetry (fun n => if n ≤ 2 then .netError else .status 299) 1 =
      (true, 3, [1000, 2000]) :=
  ⟨(webhook_retry_bound_and_short_circuit (fun _ => .status 500)).1 (fun _ => rfl),
   (webhook_retry_bound_and_short_circuit (fun _ => .status 200)).2.1 rfl,
   (webhook_retry_bound_and_short_circuit
     (fun n => if n ≤ 1 then .status 500 else .status 204)).2.2.1 (by decide) (by decide),
   (webhook_retry_bound_and_short_circuit
     (fun n => if n ≤ 2 then .netError else .status 299)).2.2.2 (by decide) (by decide)
     (by decide)⟩

/-- C5: for a user with no registered webhook URL, `sendNotification` returns
`false` having made zero HTTP attempts, and (being total) no exception
reaches the caller. -/
theorem no_webhook_url_returns_false_without_http
    (env : Env) (http : ℕ → WebhookService.AttemptRes) (st : St) (u : ℕ)
    (ev : String) (d : JsVal)
    (h : RedisService.getWebhook env st u = none) :
    WebhookService.sendNotification env http st u ev d = (false, 0) := by
  unfold WebhookService.sendNotification
  rw [h]

/-- Witness for C5: user 7 in the empty fallback state (Scenario B). -/
theorem no_webhook_url_witness :
    WebhookService.sendNotification envOk (fun _ => .status 200) st0 7
      "price_alert" (JsVal.obj []) = (false, 0) :=
  no_webhook_url_returns_false_without_http envOk (fun _ => .status 200) st0 7
    "price_alert" (JsVal.obj []) rfl

/-- Helper for C6: when the availability flag is down for the whole sequence,
the facade behaves exactly like the fallback-only system: same observed
outcomes, same fallback map, and the flag stays down. -/
theorem run_fb_equiv (env : Env) (ops : List Op) (st : St)
    (hoff : st.redisAvailable = false) :
    (run env st ops).1 = (runFB st.mem ops).1 ∧
    (run env st ops).2.mem = (runFB st.mem ops).2 ∧
    (run env st ops).2.redisAvailable = false := by
  induction ops generalizing st with
  | nil => exact ⟨rfl, rfl, hoff⟩
  | cons op rest ih =>
    have hstep : (runOp env st op).1 = (runFBOp st.mem op).1 ∧
        (runOp env st op).2.mem = (runFBOp st.mem op).2 ∧
        (runOp env st op).2.redisAvailable = false := by
      cases op <;>
        simp [runOp, runFBOp, RedisService.setUserPortfolio,
          RedisService.getUserPortfolio, RedisService.setCacheWithExpiry,
          RedisService.getCache, hoff]
    obtain ⟨e1, e2, e3⟩ := hstep
    obtain ⟨i1, i2, i3⟩ := ih (runOp env st op).2 e3
    refine ⟨?_, ?_, i3⟩
    · show (runOp env st op).1 :: (run env (runOp env st op).2 rest).1 =
        (runFBOp st.mem op).1 :: (runFB (runFBOp st.mem op).2 rest).1
      rw [e1, i1, e2]
    · show (run env (runOp env st op).2 rest).2.mem =
        (runFB (runFBOp st.mem op).2 rest).2
      rw [i2, e2]

/-- C6 counterexample: with the backend *marked available* but every remote
call failing (one of the two unavailability readings the claim admits), the
sequence `setCacheWithExpiry "k" "v"; getCache "k"` observes two thrown
exceptions — `setCacheWithExpiry`/`getCache` have no try/catch — while the
fallback-only system observes a successful write and reads back `"v"`; the
observed outcomes are not equal, contradicting the claim at this input. -/
theorem fallback_transparency_counterexample :
    (run envThrow stOn [Op.setCacheExp "k" "v" 60, Op.getCacheOp "k"]).1 =
      [Out.exn, Out.exn] ∧
    (runFB stOn.mem [Op.setCacheExp "k" "v" 60, Op.getCacheOp "k"]).1 =
      [Out.okUnit, Out.cacheVal (some (JsVal.str "v"))] ∧
    (run envThrow stOn [Op.setCacheExp "k" "v" 60, Op.getCacheOp "k"]).1 ≠
      (runFB stOn.mem [Op.setCacheExp "k" "v" 60, Op.getCacheOp "k"]).1 := by
  refine ⟨rfl, rfl, ?_⟩
  intro h
  have h2 : ([Out.exn, Out.exn] : List Out) =
      [Out.okUnit, Out.cacheVal (some (JsVal.str "v"))] := h
  simp at h2

/-- C6 amended: the fallback-transparency equivalence holds for every
operation sequence when the backend is *marked unavailable* throughout (the
flag being down routes every call to the fallback store); and the "in
particular" instance holds as stated even in the marked-available,
always-throwing regime, because the portfolio methods — unlike
`setCacheWithExpiry`/`getCache` — catch remote errors:
`setUserPortfolio(u, P)` followed by `getUserPortfolio(u)` returns `P` when
the remote cache throws on every call. -/
theorem fallback_transparency_amended :
    (∀ (env : Env) (st : St), st.redisAvailable = false → ∀ ops : List Op,
      (run env st ops).1 = (runFB st.mem ops).1 ∧
      (run env st ops).2.mem = (runFB st.mem ops).2) ∧
    (∀ (st : St) (u : ℕ) (l : List (String × JsVal)), st.redisAvailable = true →
      RedisService.getUserPortfolio envThrow
        (RedisService.setUserPortfolio envThrow st u (JsVal.obj l)) u =
        JsVal.obj l) := by
  constructor
  · intro env st hoff ops
    exact ⟨(run_fb_equiv env ops st hoff).1, (run_fb_equiv env ops st hoff).2.1⟩
  · intro st u l hon
    simp [RedisService.setUserPortfolio, RedisService.getUserPortfolio,
      envThrow, hon, mapGet_mapSet, jsOr, jsTruthy]

/-- Witness for C6 amended: a concrete two-operation portfolio sequence in
the flag-down state, and Scenario C's set-then-get in the always-throwing
regime. -/
theorem fallback_transparency_amended_witness :
    (run envOk st0 [Op.setPortfolio 1 (JsVal.obj [("BTC", JsVal.num 1)]),
        Op.getPortfolio 1]).1 =
      (runFB st0.mem [Op.setPortfolio 1 (JsVal.obj [("BTC", JsVal.num 1)]),
        Op.getPortfolio 1]).1 ∧
    RedisService.getUserPortfolio envThrow
      (RedisService.setUserPortfolio envThrow stOn 1
        (JsVal.obj [("BTC", JsVal.num 1)])) 1 =
      JsVal.obj [("BTC", JsVal.num 1)] :=
  ⟨(fallback_transparency_amended.1 envOk st0 rfl
      [Op.setPortfolio 1 (JsVal.obj [("BTC", JsVal.num 1)]),
        Op.getPortfolio 1]).1,
   fallback_transparency_amended.2 stOn 1 [("BTC", JsVal.num 1)] rfl⟩

/-- C7 counterexample: with the backend marked available and the remote write
failing, `setCacheWithExpiry` propagates the exception, the state is
completely unchanged — the value is in *neither* backend (the write is lost)
and the availability flag is *not* marked unavailable — contradicting every
part of the claim at this input. -/
theorem setCacheWithExpiry_failure_counterexample :
    RedisService.setCacheWithExpiry envThrow stOn "k" "v" 60 =
      Except.error () ∧
    runOp envThrow stOn (Op.setCacheExp "k" "v" 60) = (Out.exn, stOn) ∧
    stOn.redisAvailable = true :=
  ⟨rfl, rfl, rfl⟩

/-- C7 amended: it is the alert-registry setter `setPriceAlert` (and its
try/catch siblings), not the generic `setCacheWithExpiry`, that never loses
the write: when the backend is marked available and the remote write fails,
the entry is written to the fallback store instead of propagating — but the
backend is *not* marked unavailable — while `setCacheWithExpiry` under the
same conditions throws and loses the write. -/
theorem alert_set_falls_back_without_flagging
    (st : St) (u : ℕ) (sym : String) (p : ℚ) (b : Bool)
    (hon : st.redisAvailable = true) :
    mapGet (RedisService.setPriceAlert envThrow st u sym p b).mem
        (RedisService.getKey "alert" (Nat.repr u) (some sym)) =
      some (RedisService.alertData sym p b) ∧
    (RedisService.setPriceAlert envThrow st u sym p b).redisAvailable = true ∧
    ∀ (k v : String) (ttl : ℕ),
      RedisService.setCacheWithExpiry envThrow st k v ttl = Except.error () := by
  refine ⟨?_, ?_, ?_⟩
  · simp [RedisService.setPriceAlert, RedisService.setPriceAlertRaw, envThrow,
      hon, mapGet_mapSet]
  · simp [RedisService.setPriceAlert, RedisService.setPriceAlertRaw, envThrow, hon]
  · intro k v ttl
    simp [RedisService.setCacheWithExpiry, envThrow, hon]

/-- Witness for C7 amended: user 42's "DOT" alert written against the
marked-available, always-throwing backend. -/
theorem alert_set_falls_back_witness :
    mapGet (RedisService.setPriceAlert envThrow stOn 42 "DOT" 5 true).mem
        (RedisService.getKey "alert" (Nat.repr 42) (some "DOT")) =
      some (RedisService.alertData "DOT" 5 true) ∧
    (RedisService.setPriceAlert envThrow stOn 42 "DOT" 5 true).redisAvailable
      = true ∧
    ∀ (k v : String) (ttl : ℕ),
      RedisService.setCacheWithExpiry envThrow stOn k v ttl = Except.error () :=
  alert_set_falls_back_without_flagging stOn 42 "DOT" 5 true rfl

/-- C8 counterexample: user 42 has an ABOVE alert stored for "DOT";
`removePriceAlert(42, "DOT", below)` — a *different* direction — deletes the
stored alert (the fallback store ends up empty), instead of being the no-op
the claim states. -/
theorem removeAlert_other_direction_deletes :
    mapGet stDOT.mem "alert:42:DOT" = some (RedisService.alertData "DOT" 5 true) ∧
    RedisService.removePriceAlert envOk stDOT 42 "DOT" false =
      Except.ok { stDOT with mem := [] } :=
  ⟨rfl, rfl⟩

/-- C8 amended: `removePriceAlert` ignores its direction argument entirely —
the two direction values produce identical results — and (in fallback mode)
deletes the entry keyed `alert:{userId}:{symbol}` regardless of the stored
alert's direction, leaving no alert behind. -/
theorem removeAlert_ignores_direction (env : Env) (st : St) (u : ℕ)
    (sym : String) (b1 b2 : Bool) (hoff : st.redisAvailable = false) :
    RedisService.removePriceAlert env st u sym b1 =
      RedisService.removePriceAlert env st u sym b2 ∧
    RedisService.removePriceAlert env st u sym b1 =
      Except.ok { st with
        mem := mapDelete st.mem (RedisService.getKey "alert" (Nat.repr u) (some sym)) } ∧
    mapGet (mapDelete st.mem (RedisService.getKey "alert" (Nat.repr u) (some sym)))
      (RedisService.getKey "alert" (Nat.repr u) (some sym)) = none := by
  refine ⟨rfl, ?_, mapGet_mapDelete _ _⟩
  simp [RedisService.removePriceAlert, RedisService.removePriceAlertRaw, hoff]

/-- Witness for C8 amended: removing user 42's "DOT" alert with either
direction value. -/
theorem removeAlert_ignores_direction_witness :
    RedisService.removePriceAlert envOk stDOT 42 "DOT" false =
      RedisService.removePriceAlert envOk stDOT 42 "DOT" true ∧
    RedisService.removePriceAlert envOk stDOT 42 "DOT" false =
      Except.ok { stDOT with
        mem := mapDelete stDOT.mem (RedisService.getKey "alert" (Nat.repr 42) (some "DOT")) } ∧
    mapGet (mapDelete stDOT.mem (RedisService.getKey "alert" (Nat.repr 42) (some "DOT")))
      (RedisService.getKey "alert" (Nat.repr 42) (some "DOT")) = none :=
  removeAlert_ignores_direction envOk stDOT 42 "DOT" false true rfl

/-- C9 counterexample: in fallback mode the empty string *is* stored by
`setCacheWithExpiry`, yet `getCache` reads it back as `null` (the
`` `get(key) || null` `` falsiness check) — even with no time elapsed — so
"a later getCache(key) returns the value" fails for the value `""`. -/
theorem fallback_empty_string_reads_null :
    RedisService.setCacheWithExpiry envOk st0 "k" "" 60 =
      Except.ok { st0 with mem := [("k", JsVal.str "")] } ∧
    RedisService.getCache envOk { st0 with mem := [("k", JsVal.str "")] } "k" =
      Except.ok none :=
  ⟨rfl, rfl⟩

/-- C9 amended: when the backend is unavailable, `setCacheWithExpiry` stores
the value in the fallback store with no expiry recorded (the stored entry is
the bare value), and for every nonempty value, every key, every ttl and
every amount of elapsed time, `getCache` still returns the value — fallback
entries never expire.  (The empty string is stored but reads back as `null`.) -/
theorem fallback_cache_never_expires (env env2 : Env) (st : St) (k v : String)
    (ttl t : ℕ) (hoff : st.redisAvailable = false) (hv : v ≠ "") :
    RedisService.setCacheWithExpiry env st k v ttl =
      Except.ok { st with mem := mapSet st.mem k (JsVal.str v) } ∧
    RedisService.getCache env2
      (advance { st with mem := mapSet st.mem k (JsVal.str v) } t) k =
      Except.ok (some (JsVal.str v)) := by
  constructor
  · simp [RedisService.setCacheWithExpiry, hoff]
  · simp [RedisService.getCache, advance, hoff, mapGet_mapSet, jsTruthy, hv]

/-- Witness for C9 amended: key "k", value "v", ttl 300, one million time
units later, against both backend behaviours. -/
theorem fallback_cache_never_expires_witness :
    RedisService.setCacheWithExpiry envOk st0 "k" "v" 300 =
      Except.ok { st0 with mem := mapSet st0.mem "k" (JsVal.str "v") } ∧
    RedisService.getCache envThrow
      (advance { st0 with mem := mapSet st0.mem "k" (JsVal.str "v") } 1000000) "k" =
      Except.ok (some (JsVal.str "v")) :=
  fallback_cache_never_expires envOk envThrow st0 "k" "v" 300 1000000 rfl
    (by decide)

/-- State after user 12 stores an ABOVE alert at 5 on "BTC" (fallback mode;
key `alert:12:BTC`), user 1 having no alerts at all. -/
def st12 : St := RedisService.setPriceAlert envOk st0 12 "BTC" 5 true

/-- C10: `clearUserAlerts` tests fallback keys with
`` startsWith(`alert:${userId}`) `` — no following separator required — so
whenever the decimal id of `u1` is a prefix of that of `u2`, clearing `u1`'s
alerts also deletes `u2`'s fallback alert, and `getPriceAlerts(u1)` in
fallback mode returns `u2`'s alert value. -/
theorem alert_prefix_collision (env : Env) (st : St) (u1 u2 : ℕ) (sym : String)
    (v : JsVal)
    (hmem : st.mem = [(RedisService.getKey "alert" (Nat.repr u2) (some sym), v)])
    (hpfx : (Nat.repr u1).data <+: (Nat.repr u2).data)
    (hoff : st.redisAvailable = false) :
    (RedisService.clearUserAlerts env st u1).mem = [] ∧
    ∃ s, RedisService.getPriceAlertsRaw env st (Nat.repr u1) = [(s, v)] := by
  have hsw : jsStartsWith (RedisService.getKey "alert" (Nat.repr u2) (some sym))
      ("alert:" ++ Nat.repr u1) = true := by
    rw [getKey_alert]
    exact jsStartsWith_append "alert:" (Nat.repr u1) (Nat.repr u2) _ hpfx
  constructor
  · rw [clearUserAlerts_mem, hmem]
    simp [hsw]
  · refine ⟨(jsSplit (RedisService.getKey "alert" (Nat.repr u2) (some sym)) ':').getD
      2 "undefined", ?_⟩
    unfold RedisService.getPriceAlertsRaw
    simp [hoff, RedisService.memAlertEntries, hmem, hsw, RedisService.alertsRecord,
      mapSet]

/-- Witness for C10: users 1 and 12 — clearing user 1's alerts deletes user
12's "BTC" alert, and `getPriceAlerts(1)` returns it. -/
theorem alert_prefix_collision_witness :
    (RedisService.clearUserAlerts envOk st12 1).mem = [] ∧
    ∃ s, RedisService.getPriceAlertsRaw envOk st12 (Nat.repr 1) =
      [(s, RedisService.alertData "BTC" 5 true)] :=
  alert_prefix_collision envOk st12 1 12 "BTC"
    (RedisService.alertData "BTC" 5 true) rfl ⟨['2'], rfl⟩ rfl

end SentinelTrade
